import Mathlib

/-!
Verification development for the RBAC administration service in `src/main.py`
(Flask + SQLAlchemy over SQLite).

The embedding models the two database tables (`role`, `user`) as Lean lists of
records, the JSON request bodies as an inductive `Json` type, and each HTTP
handler as a pure function from a store and a request to a response and a new
store.  Python exceptions that escape a handler (and therefore surface as a
500 response) are modelled with `Except PyErr`.  Notes on specific modelling
choices appear next to each definition.
-/

namespace RBAC

/-- JSON values as decoded by Flask's `request.json` (Python's `json` module).
Numbers are modelled as integers; no endpoint behaviour settled here depends on
fractional numbers.  An object is a sequence of key-value fields; a Python dict
holds each key at most once. -/
inductive Json where
  | null : Json
  | bool (b : Bool) : Json
  | num (n : Int) : Json
  | str (s : String) : Json
  | arr (elems : List Json) : Json
  | obj (fields : List (String × Json)) : Json

/-- Python truthiness of a decoded JSON value: `None`, `False`, `0`, `""`,
`[]` and empty dicts are falsy, everything else is truthy. -/
def pyTruthy : Json → Bool
  | .null => false
  | .bool b => b
  | .num n => n != 0
  | .str s => s != ""
  | .arr l => !l.isEmpty
  | .obj m => !m.isEmpty

/-- ASCII whitespace as stripped by Python's `str.strip()`.  (Python also
strips some Unicode spaces; every claim only exercises ASCII input.) -/
def isPySpace (c : Char) : Bool :=
  c == ' ' || c == '\t' || c == '\n' || c == '\r' || c == '\x0b' || c == '\x0c'

/-- Python's `str.strip()`: drop leading and trailing whitespace. -/
def pyStrip (s : String) : String :=
  ⟨((s.data.dropWhile isPySpace).reverse.dropWhile isPySpace).reverse⟩

/-- Python's `str.lower()` restricted to ASCII (via `Char.toLower`); every
claim only exercises ASCII input. -/
def lowerStr (s : String) : String :=
  ⟨s.data.map Char.toLower⟩

/-- Python exceptions that escape a handler; Flask turns them into a 500
response.  `attributeError` arises from calling a method on a value that lacks
it (e.g. `.get` on a non-dict), `typeError` from operating on a value of the
wrong shape, `integrityError` from committing a row that violates a database
UNIQUE constraint. -/
inductive PyErr where
  | attributeError : PyErr
  | typeError : PyErr
  | integrityError : PyErr
deriving DecidableEq, Repr

/-- First binding of a key in a JSON object (Python dicts hold each key once). -/
def lookupField : List (String × Json) → String → Option Json
  | [], _ => none
  | (k', v) :: rest, k => if k' = k then some v else lookupField rest k

/-- `data.get(k)` on the decoded body: raises AttributeError when `data` is not
a dict; returns Python `None` (modelled `none`) both when the key is absent and
when its value is JSON `null`, exactly as `dict.get` does. -/
def dictGet (d : Json) (k : String) : Except PyErr (Option Json) :=
  match d with
  | .obj fields =>
    .ok (match lookupField fields k with
      | some .null => none
      | some v => some v
      | none => none)
  | _ => .error .attributeError

/-- `x or dflt` on an optional decoded value: the default is used when the
value is missing or falsy. -/
def pyOr (v : Option Json) (dflt : Json) : Json :=
  match v with
  | some v => if pyTruthy v then v else dflt
  | none => dflt

/-- `(x or "").strip()`: missing or falsy values become the empty string; a
string is stripped; a truthy non-string raises AttributeError at `.strip()`. -/
def getStrippedStr (v : Option Json) : Except PyErr String :=
  match v with
  | some (.str s) => .ok (pyStrip s)
  | some v => if pyTruthy v then .error .attributeError else .ok ""
  | none => .ok ""

/-- `data.get(k) or None` for a value stored in a nullable string column:
falsy values become NULL.  A truthy non-string would be stored as a non-string
value in the text column; the typed store cannot represent that, so the
embedding reports it as an error (no claim exercises this input). -/
def getOptStr (v : Option Json) : Except PyErr (Option String) :=
  match v with
  | some (.str s) => .ok (if s = "" then none else some s)
  | some v => if pyTruthy v then .error .typeError else .ok none
  | none => .ok none

/-- `data = request.json or {}` (lines 188, 207, 274, 297 of `src/main.py`):
a falsy decoded body is replaced by the empty dict. -/
def coerceBody (body : Json) : Json :=
  if pyTruthy body then body else .obj []

/-- A row of the `role` table.  The `privileges` and `assigned_users` columns
hold JSON-encoded text; since every handler writes them with `json.dumps` and
reads them with `json.loads`, the embedding stores the decoded value. -/
structure Role where
  id : Nat
  name : String
  privileges : Json
  assigned_users : Json
  created_at : String

/-- A row of the `user` table. -/
structure User where
  id : Nat
  name : String
  role : Option String
  email : Option String
  phone : Option String
  branch : Option String
  created_at : String
deriving DecidableEq, Repr

/-- The summary dict produced by `Role.to_summary` (lines 27-38). -/
structure Summary where
  id : Nat
  name : String
  privileges_count : Nat
  modules_count : Nat
  created_at : String
  assigned_users : Json

/-- Reads a privilege list as a list of strings.  Python's `set(v)` works on
any list of hashable values; the claims only exercise lists of strings, and
the embedding reports any other element shape as a TypeError. -/
def asStrList : List Json → Except PyErr (List String)
  | [] => .ok []
  | .str s :: rest =>
    match asStrList rest with
    | .error e => .error e
    | .ok ss => .ok (s :: ss)
  | _ :: _ => .error .typeError

/-- `len(set(v))` on one module's privilege list: the number of distinct
entries (a non-list value raises a TypeError in `set(v)`). -/
def distinctStrCount (v : Json) : Except PyErr Nat :=
  match v with
  | .arr elems =>
    match asStrList elems with
    | .error e => .error e
    | .ok strs => .ok strs.dedup.length
  | _ => .error .typeError

/-- `sum(len(set(v)) for v in privs.values())` (line 30), as the list of
per-module distinct counts. -/
def privCounts : List (String × Json) → Except PyErr (List Nat)
  | [] => .ok []
  | (_, v) :: rest =>
    match distinctStrCount v with
    | .error e => .error e
    | .ok c =>
      match privCounts rest with
      | .error e => .error e
      | .ok cs => .ok (c :: cs)

/-- `Role.to_summary` (lines 27-38): counts distinct privileges per module and
the number of module keys. -/
def Role.to_summary (r : Role) : Except PyErr Summary :=
  match r.privileges with
  | .obj m =>
    match privCounts m with
    | .error e => .error e
    | .ok counts =>
      .ok { id := r.id, name := r.name, privileges_count := counts.sum,
            modules_count := m.length, created_at := r.created_at,
            assigned_users := r.assigned_users }
  | _ => .error .typeError

/-- The list comprehension `[r.to_summary() for r in rows]` (line 174); an
exception from any element propagates. -/
def summaries : List Role → Except PyErr (List Summary)
  | [] => .ok []
  | r :: rs =>
    match r.to_summary with
    | .error e => .error e
    | .ok s =>
      match summaries rs with
      | .error e => .error e
      | .ok ss => .ok (s :: ss)

/-! ### SQL `ilike` (case-insensitive LIKE) -/

/-- Does `f` accept some suffix of the list (including the list itself)? -/
def anySuffix (f : List Char → Bool) : List Char → Bool
  | [] => f []
  | c :: s' => f (c :: s') || anySuffix f s'

/-- SQL LIKE pattern matching over characters: `%` matches any sequence,
`_` matches exactly one character, anything else matches itself. -/
def likeM : List Char → List Char → Bool
  | [], s => s.isEmpty
  | p :: ps, s =>
    if p = '%' then anySuffix (likeM ps) s
    else match s with
      | [] => false
      | c :: s' => (decide (p = '_') || p == c) && likeM ps s'

/-- SQL `ilike`: case-insensitive LIKE, modelled by lowercasing both the
pattern and the subject. -/
def ilike (pat s : String) : Bool :=
  likeM (lowerStr pat).data (lowerStr s).data

/-- `ilike` against a nullable column: NULL matches nothing. -/
def ilikeOpt (pat : String) (o : Option String) : Bool :=
  match o with
  | some s => ilike pat s
  | none => false

/-! ### Case-insensitive substring occurrence (the specification's notion).

These two definitions follow the spec's words ("matches case-insensitively as
a substring"), to be compared with the source's `ilike` patterns. -/

/-- Is `p` a prefix of `s` (as character lists)? -/
def startsWithB : List Char → List Char → Bool
  | [], _ => true
  | _ :: _, [] => false
  | c :: p', d :: s' => c == d && startsWithB p' s'

/-- Does `p` occur as a contiguous substring of `s`? -/
def containsB (p : List Char) : List Char → Bool
  | [] => p.isEmpty
  | c :: s' => startsWithB p (c :: s') || containsB p s'

/-- Case-insensitive substring occurrence of `q` in `s`. -/
def ciSubstr (q s : String) : Bool :=
  containsB (lowerStr q).data (lowerStr s).data

/-- Case-insensitive substring occurrence in a nullable field. -/
def ciSubstrOpt (q : String) : Option String → Bool
  | some s => ciSubstr q s
  | none => false

/-! ### Ordering by id (`ORDER BY id`) -/

/-- Comparison of roles by id, used for `order_by(Role.id)`. -/
def roleIdLe (a b : Role) : Prop := a.id ≤ b.id

instance : DecidableRel roleIdLe := fun a b => inferInstanceAs (Decidable (a.id ≤ b.id))

instance : IsTotal Role roleIdLe := ⟨fun a b => Nat.le_total a.id b.id⟩

instance : IsTrans Role roleIdLe := ⟨fun _ _ _ => Nat.le_trans⟩

/-- Comparison of users by id, used for `order_by(User.id)`. -/
def userIdLe (a b : User) : Prop := a.id ≤ b.id

instance : DecidableRel userIdLe := fun a b => inferInstanceAs (Decidable (a.id ≤ b.id))

instance : IsTotal User userIdLe := ⟨fun a b => Nat.le_total a.id b.id⟩

instance : IsTrans User userIdLe := ⟨fun _ _ _ => Nat.le_trans⟩

/-! ### Responses -/

/-- Response of a role endpoint: a 200 with a message and the role dict, or an
error body with its HTTP status code. -/
inductive RoleResp where
  | ok (msg : String) (role : Role) : RoleResp
  | err (code : Nat) (msg : String) : RoleResp

/-- Response of a user endpoint. -/
inductive UserResp where
  | ok (msg : String) (user : User) : UserResp
  | err (code : Nat) (msg : String) : UserResp
deriving DecidableEq, Repr

/-- Response of a delete endpoint. -/
inductive DeleteResp where
  | ok (msg : String) : DeleteResp
  | err (code : Nat) (msg : String) : DeleteResp
deriving DecidableEq, Repr

/-! ### Role endpoints -/

/-- `GET /api/roles` (lines 167-175): filter by case-insensitive substring of
the name when the processed query is non-empty, order by id, and summarize. -/
def api_get_roles (store : List Role) (qRaw : String) : Except PyErr (List Summary) :=
  let q := lowerStr (pyStrip qRaw)
  let rows := List.insertionSort roleIdLe
    (if q = "" then store else store.filter (fun r => ilike ("%" ++ q ++ "%") r.name))
  summaries rows

/-- Body of `POST /api/roles` after `data = request.json or {}`: field
extraction (lines 189-191), validation (192-195) and insertion (196-199). -/
def createRoleCore (store : List Role) (data : Json) (newId : Nat) (now : String) :
    Except PyErr (RoleResp × List Role) :=
  match dictGet data "name" with
  | .error e => .error e
  | .ok nv =>
    match getStrippedStr nv with
    | .error e => .error e
    | .ok name =>
      match dictGet data "privileges" with
      | .error e => .error e
      | .ok privV =>
        match dictGet data "assigned_users" with
        | .error e => .error e
        | .ok auV =>
          let privileges := pyOr privV (.obj [])
          let assigned_users := pyOr auV (.arr [])
          if name = "" then .ok (.err 400 "missing name", store)
          else if store.any (fun r => r.name == name) then
            .ok (.err 400 "role exists", store)
          else
            let r : Role := ⟨newId, name, privileges, assigned_users, now⟩
            .ok (.ok "role created" r, store ++ [r])

/-- `POST /api/roles` (lines 186-199).  `newId` and `now` stand for the
store-assigned fresh id and the creation timestamp. -/
def api_create_role (store : List Role) (body : Json) (newId : Nat) (now : String) :
    Except PyErr (RoleResp × List Role) :=
  createRoleCore store (coerceBody body) newId now

/-- The decoded object body of `PUT /api/roles/<id>` as read by `data.get`
(lines 208-210): `none` models both an absent key and JSON `null`, which
Python's `dict.get` conflates.  The name field is typed as a string because a
role name is a string column; no claim sends a non-string name. -/
structure RoleUpdate where
  name : Option String
  privileges : Option Json
  assigned_users : Option Json

/-- `PUT /api/roles/<id>` (lines 202-220): a truthy name is checked for
conflict against other roles and replaces the stored name; `privileges` and
`assigned_users` replace the stored value whenever the key is present with a
non-null value (`is not None`), including explicitly empty ones. -/
def api_update_role (store : List Role) (rid : Nat) (b : RoleUpdate) :
    RoleResp × List Role :=
  match store.find? (fun x => x.id == rid) with
  | none => (.err 404 "not found", store)
  | some r =>
    let nameConflict :=
      match b.name with
      | some nm => decide (nm ≠ "") && store.any (fun x => x.name == nm && x.id != rid)
      | none => false
    if nameConflict then (.err 400 "role name conflict", store)
    else
      let r1 :=
        match b.name with
        | some nm => if nm = "" then r else { r with name := nm }
        | none => r
      let r2 := { r1 with privileges := b.privileges.getD r1.privileges,
                          assigned_users := b.assigned_users.getD r1.assigned_users }
      (.ok "updated" r2, store.map (fun x => if x.id == rid then r2 else x))

/-- `POST /api/roles/<id>/duplicate` (lines 233-245): clone the row under the
name `"<name> Copy"` with a fresh id and timestamp.  The handler performs no
uniqueness pre-check, but the `name` column carries a UNIQUE constraint
(line 22), so `db.session.commit()` raises IntegrityError when a role with the
new name already exists. -/
def api_duplicate_role (store : List Role) (rid : Nat) (newId : Nat) (now : String) :
    Except PyErr (RoleResp × List Role) :=
  match store.find? (fun x => x.id == rid) with
  | none => .ok (.err 404 "not found", store)
  | some orig =>
    let new : Role := ⟨newId, orig.name ++ " Copy", orig.privileges, orig.assigned_users, now⟩
    if store.any (fun x => x.name == new.name) then .error .integrityError
    else .ok (.ok "duplicated" new, store ++ [new])

/-! ### User endpoints -/

/-- Does a user row match the search filter (lines 253-259)?  The pattern is
matched with `ilike` against name, email, role and branch; NULL columns match
nothing. -/
def userMatches (q : String) (u : User) : Bool :=
  let pat := "%" ++ q ++ "%"
  ilike pat u.name || ilikeOpt pat u.email || ilikeOpt pat u.role || ilikeOpt pat u.branch

/-- `GET /api/users` (lines 249-261): filter when the processed query is
non-empty, order by id. -/
def api_get_users (store : List User) (qRaw : String) : List User :=
  let q := lowerStr (pyStrip qRaw)
  let rows := if q = "" then store else store.filter (userMatches q)
  List.insertionSort userIdLe rows

/-- Body of `POST /api/users` after `data = request.json or {}`: field
extraction (lines 275-279), validation (281-284) and insertion (286-289). -/
def addUserCore (store : List User) (data : Json) (newId : Nat) (now : String) :
    Except PyErr (UserResp × List User) :=
  match dictGet data "name" with
  | .error e => .error e
  | .ok nv =>
    match getStrippedStr nv with
    | .error e => .error e
    | .ok name =>
      match dictGet data "role" with
      | .error e => .error e
      | .ok roleV =>
        match getOptStr roleV with
        | .error e => .error e
        | .ok role_name =>
          match stripOptField data "email" with
          | .error e => .error e
          | .ok email =>
            match stripOptField data "phone" with
            | .error e => .error e
            | .ok phone =>
              match stripOptField data "branch" with
              | .error e => .error e
              | .ok branch =>
                if name = "" then .ok (.err 400 "missing name", store)
                else if store.any (fun u => u.name == name) then
                  .ok (.err 400 "user exists", store)
                else
                  let u : User := ⟨newId, name, role_name, email, phone, branch, now⟩
                  .ok (.ok "user added" u, store ++ [u])
where
  /-- `(data.get(k) or "").strip() or None` (lines 277-279). -/
  stripOptField (data : Json) (k : String) : Except PyErr (Option String) := do
    let s ← getStrippedStr (← dictGet data k)
    .ok (if s = "" then none else some s)

/-- `POST /api/users` (lines 272-289). -/
def api_add_user (store : List User) (body : Json) (newId : Nat) (now : String) :
    Except PyErr (UserResp × List User) :=
  addUserCore store (coerceBody body) newId now

/-- The decoded object body of `PUT /api/users/<id>`.  The handler checks key
presence (`"name" in data`) separately from the value, so each field is
`Option (Option String)`: the outer layer is key presence, the inner layer is
JSON `null` versus a string.  No claim sends a non-string field value. -/
structure UserUpdate where
  name : Option (Option String)
  role : Option (Option String)
  email : Option (Option String)
  phone : Option (Option String)
  branch : Option (Option String)

/-- `PUT /api/users/<id>` (lines 292-312): when the name key is present, the
stripped value is conflict-checked only when non-empty, and an empty stripped
value keeps the old name (`u.name = nm or u.name`); the other four fields are
overwritten verbatim whenever their key is present. -/
def api_update_user (store : List User) (uid : Nat) (b : UserUpdate) :
    UserResp × List User :=
  match store.find? (fun x => x.id == uid) with
  | none => (.err 404 "not found", store)
  | some u =>
    let finish : User → UserResp × List User := fun u1 =>
      let u2 := { u1 with role := b.role.getD u1.role, email := b.email.getD u1.email,
                          phone := b.phone.getD u1.phone, branch := b.branch.getD u1.branch }
      (.ok "updated" u2, store.map (fun x => if x.id == uid then u2 else x))
    match b.name with
    | some nv =>
      let nm := pyStrip (nv.getD "")
      if decide (nm ≠ "") && store.any (fun w => w.name == nm && w.id != uid) then
        (.err 400 "name already exists", store)
      else
        finish (if nm = "" then u else { u with name := nm })
    | none => finish u

/-- `DELETE /api/users/<id>` (lines 315-322): delete the row with that id. -/
def api_delete_user (store : List User) (uid : Nat) : DeleteResp × List User :=
  match store.find? (fun x => x.id == uid) with
  | none => (.err 404 "not found", store)
  | some _ => (.ok "deleted", store.filter (fun u => u.id != uid))

/-- The whole persisted state: the `role` and `user` tables. -/
structure St where
  roles : List Role
  users : List User

/-- The user-delete route acting on the whole state: it reads and writes only
the `user` table. -/
def app_delete_user (st : St) (uid : Nat) : DeleteResp × St :=
  let p := api_delete_user st.users uid
  (p.1, { st with users := p.2 })

/-! ### General lemmas about the store -/

/-- In a store with no duplicate ids, the row found by a primary-key lookup is
the only row carrying that id. -/
theorem unique_by_id (store : List Role) (rid : Nat) (r : Role)
    (hfind : store.find? (fun x => x.id == rid) = some r)
    (hnodup : (store.map Role.id).Nodup) :
    ∀ x ∈ store, x.id = rid → x = r := by
  induction store with
  | nil => simp at hfind
  | cons y ys ih =>
    simp only [List.map_cons, List.nodup_cons] at hnodup
    by_cases hy : y.id = rid
    · rw [List.find?_cons_of_pos _ (by simp [hy])] at hfind
      obtain rfl : y = r := by injection hfind
      intro x hx hxid
      rcases List.mem_cons.mp hx with rfl | hx'
      · rfl
      · have hmem := List.mem_map_of_mem Role.id hx'
        rw [hxid, ← hy] at hmem
        exact absurd hmem hnodup.1
    · rw [List.find?_cons_of_neg _ (by simp [hy])] at hfind
      intro x hx hxid
      rcases List.mem_cons.mp hx with rfl | hx'
      · exact absurd hxid hy
      · exact ih hfind hnodup.2 x hx' hxid

/-- Writing back the found row unchanged (or any row equal to every row with
the target id) leaves the store unchanged. -/
theorem map_ite_id (store : List Role) (rid : Nat) (r : Role)
    (h : ∀ x ∈ store, x.id = rid → x = r) :
    store.map (fun x => if x.id == rid then r else x) = store := by
  induction store with
  | nil => rfl
  | cons y ys ih =>
    have hy : (if y.id == rid then r else y) = y := by
      by_cases hid : y.id = rid
      · simp [hid, (h y (by simp) hid).symm]
      · simp [hid]
    simp only [List.map_cons, hy, ih (fun x hx hid => h x (by simp [hx]) hid)]

/-- CLAIM C6: updating a Role to a (non-empty) name already held by a
different Role answers 400 with the body "role name conflict" and leaves the
store — in particular the targeted Role's name, privileges and assigned_users
— exactly as it was.  (Every role name reachable through the API is non-empty:
creation rejects blank names and updates never store one; a falsy requested
name skips the conflict check entirely, see claim C10.) -/
theorem role_update_name_conflict (store : List Role) (rid : Nat) (r w : Role)
    (b : RoleUpdate) (nm : String)
    (hfind : store.find? (fun x => x.id == rid) = some r)
    (hb : b.name = some nm) (hnm : nm ≠ "")
    (hw : w ∈ store) (hwid : w.id ≠ rid) (hwname : w.name = nm) :
    api_update_role store rid b = (.err 400 "role name conflict", store) := by
  have hany : store.any (fun x => x.name == nm && x.id != rid) = true :=
    List.any_eq_true.mpr ⟨w, hw, by simp [hwname, hwid]⟩
  simp [api_update_role, hfind, hb, hnm, hany]

/-- Witness for C6 at a concrete store: renaming role 1 to the name of role 2
fails with the conflict error and the store is untouched. -/
theorem role_update_name_conflict_witness :
    api_update_role [⟨1, "A", .obj [], .arr [], "t"⟩, ⟨2, "B", .obj [], .arr [], "t"⟩] 1
      ⟨some "B", none, none⟩ =
    (.err 400 "role name conflict",
     [⟨1, "A", .obj [], .arr [], "t"⟩, ⟨2, "B", .obj [], .arr [], "t"⟩]) :=
  role_update_name_conflict _ 1 ⟨1, "A", .obj [], .arr [], "t"⟩
    ⟨2, "B", .obj [], .arr [], "t"⟩ _ "B" rfl rfl (by decide)
    (by simp) (by decide) rfl

/-- CLAIM C10: a role-update request whose name field is present but empty, or
null/absent (Python's `dict.get` conflates null with absent), keeps the stored
name, performs no conflict check (the request succeeds whatever the other
roles are named), raises no validation error, and answers 200 with the role. -/
theorem role_update_falsy_name (store : List Role) (rid : Nat) (r : Role) (b : RoleUpdate)
    (hfind : store.find? (fun x => x.id == rid) = some r)
    (hb : b.name = none ∨ b.name = some "") :
    ∃ r' st', api_update_role store rid b = (.ok "updated" r', st') ∧ r'.name = r.name := by
  refine
    ⟨{ r with
        privileges := b.privileges.getD r.privileges,
        assigned_users := b.assigned_users.getD r.assigned_users },
     store.map (fun x =>
       if x.id == rid then
         { r with
             privileges := b.privileges.getD r.privileges,
             assigned_users := b.assigned_users.getD r.assigned_users }
       else x),
     ?_, rfl⟩
  rcases hb with hb | hb <;> simp [api_update_role, hfind, hb]

/-- Witness for C10: updating with an empty name next to another role answers
200 and keeps the name "A". -/
theorem role_update_falsy_name_witness :
    ∃ r' st',
      api_update_role [⟨1, "A", .obj [], .arr [], "t"⟩, ⟨2, "B", .obj [], .arr [], "t"⟩] 1
        ⟨some "", none, none⟩ = (.ok "updated" r', st') ∧ r'.name = "A" :=
  role_update_falsy_name _ 1 ⟨1, "A", .obj [], .arr [], "t"⟩ _ rfl (Or.inr rfl)

/-- CLAIM C2: the role update distinguishes "field not sent" (or sent as null)
from "field sent as empty".  With no fields sent the role and the store are
unchanged; in general the updated role keeps the stored value exactly for the
fields whose `data.get` came back None, and takes the sent value — including
an explicitly empty mapping or sequence — for the others, as the two
`Option.getD` occurrences in the conclusion spell out. -/
theorem role_update_field_frame (store : List Role) (rid : Nat) (r : Role)
    (hfind : store.find? (fun x => x.id == rid) = some r)
    (hnodup : (store.map Role.id).Nodup) :
    api_update_role store rid ⟨none, none, none⟩ = (.ok "updated" r, store) ∧
    (∀ bp ba : Option Json,
      api_update_role store rid ⟨none, bp, ba⟩ =
        (.ok "updated" { r with privileges := bp.getD r.privileges,
                                assigned_users := ba.getD r.assigned_users },
         store.map (fun x => if x.id == rid then
           { r with privileges := bp.getD r.privileges,
                    assigned_users := ba.getD r.assigned_users } else x))) ∧
    (∀ (nm : String) (bp ba : Option Json), nm ≠ "" →
      (∀ w ∈ store, w.id ≠ rid → w.name ≠ nm) →
      api_update_role store rid ⟨some nm, bp, ba⟩ =
        (.ok "updated" { r with name := nm, privileges := bp.getD r.privileges,
                                assigned_users := ba.getD r.assigned_users },
         store.map (fun x => if x.id == rid then
           { r with name := nm, privileges := bp.getD r.privileges,
                    assigned_users := ba.getD r.assigned_users } else x))) := by
  refine ⟨?_, ?_, ?_⟩
  · have hrepl := map_ite_id store rid r (unique_by_id store rid r hfind hnodup)
    simp only [api_update_role, hfind, Option.getD_none]
    rw [if_neg (by simp)]
    have heta : ({ r with privileges := r.privileges,
                          assigned_users := r.assigned_users } : Role) = r := rfl
    rw [heta, hrepl]
  · intro bp ba
    simp [api_update_role, hfind]
  · intro nm bp ba hnm hno
    have hany : store.any (fun x => x.name == nm && x.id != rid) = false := by
      rw [List.any_eq_false]
      intro x hx
      by_cases hid : x.id = rid
      · simp [hid]
      · simp [hno x hx hid, hid]
    simp [api_update_role, hfind, hnm, hany]

/-- Witness for C2 at a concrete store: a PUT with no fields changes nothing,
and a PUT sending only an empty privileges mapping clears exactly that field. -/
theorem role_update_field_frame_witness :
    api_update_role [⟨1, "A", .obj [("POSP", .arr [.str "read"])], .arr [.str "x"], "t"⟩] 1
      ⟨none, none, none⟩ =
      (.ok "updated" ⟨1, "A", .obj [("POSP", .arr [.str "read"])], .arr [.str "x"], "t"⟩,
       [⟨1, "A", .obj [("POSP", .arr [.str "read"])], .arr [.str "x"], "t"⟩]) ∧
    api_update_role [⟨1, "A", .obj [("POSP", .arr [.str "read"])], .arr [.str "x"], "t"⟩] 1
      ⟨none, some (.obj []), none⟩ =
      (.ok "updated" ⟨1, "A", .obj [], .arr [.str "x"], "t"⟩,
       [⟨1, "A", .obj [], .arr [.str "x"], "t"⟩]) := by
  have h := role_update_field_frame
    [⟨1, "A", .obj [("POSP", .arr [.str "read"])], .arr [.str "x"], "t"⟩] 1
    ⟨1, "A", .obj [("POSP", .arr [.str "read"])], .arr [.str "x"], "t"⟩ rfl (by decide)
  exact ⟨h.1, h.2.1 (some (.obj [])) none⟩

/-- CLAIM C5: user update with the name key present: a non-empty stripped name
held by a different user is a 400 conflict leaving the store unchanged; a
non-empty stripped name held by no other user replaces the stored name; a name
that strips to empty keeps the stored name and is not an error. -/
theorem user_update_name_rules (store : List User) (uid : Nat) (u : User)
    (b : UserUpdate) (nv : Option String) (nm : String)
    (hfind : store.find? (fun x => x.id == uid) = some u)
    (hb : b.name = some nv) (hnm : nm = pyStrip (nv.getD "")) :
    ((nm ≠ "" ∧ ∃ w ∈ store, w.id ≠ uid ∧ w.name = nm) →
      api_update_user store uid b = (.err 400 "name already exists", store)) ∧
    ((nm ≠ "" ∧ ∀ w ∈ store, w.id ≠ uid → w.name ≠ nm) →
      ∃ u' st', api_update_user store uid b = (.ok "updated" u', st') ∧ u'.name = nm) ∧
    (nm = "" → ∃ u' st', api_update_user store uid b = (.ok "updated" u', st') ∧
      u'.name = u.name) := by
  refine ⟨?_, ?_, ?_⟩
  · rintro ⟨h1, w, hw, hwid, hwnm⟩
    have hany : store.any (fun w => w.name == nm && w.id != uid) = true :=
      List.any_eq_true.mpr ⟨w, hw, by simp [hwnm, hwid]⟩
    simp [api_update_user, hfind, hb, ← hnm, h1, hany]
  · rintro ⟨h1, hno⟩
    have hany : store.any (fun w => w.name == nm && w.id != uid) = false := by
      rw [List.any_eq_false]
      intro x hx
      by_cases hid : x.id = uid
      · simp [hid]
      · simp [hno x hx hid, hid]
    refine
      ⟨{ u with
          name := nm,
          role := b.role.getD u.role,
          email := b.email.getD u.email,
          phone := b.phone.getD u.phone,
          branch := b.branch.getD u.branch },
       store.map (fun x =>
         if x.id == uid then
           { u with
               name := nm,
               role := b.role.getD u.role,
               email := b.email.getD u.email,
               phone := b.phone.getD u.phone,
               branch := b.branch.getD u.branch }
         else x),
       ?_, rfl⟩
    simp [api_update_user, hfind, hb, ← hnm, h1, hany]
  · intro h0
    refine
      ⟨{ u with
          role := b.role.getD u.role,
          email := b.email.getD u.email,
          phone := b.phone.getD u.phone,
          branch := b.branch.getD u.branch },
       store.map (fun x =>
         if x.id == uid then
           { u with
               role := b.role.getD u.role,
               email := b.email.getD u.email,
               phone := b.phone.getD u.phone,
               branch := b.branch.getD u.branch }
         else x),
       ?_, rfl⟩
    simp [api_update_user, hfind, hb, ← hnm, h0]

/-- Witness for C5: renaming user 1 to "bob" conflicts with user 2 and leaves
the store unchanged; sending a whitespace-only name keeps the name "alice". -/
theorem user_update_name_rules_witness :
    api_update_user
      [⟨1, "alice", none, none, none, none, "t"⟩, ⟨2, "bob", none, none, none, none, "t"⟩] 1
      ⟨some (some "bob"), none, none, none, none⟩ =
      (.err 400 "name already exists",
       [⟨1, "alice", none, none, none, none, "t"⟩, ⟨2, "bob", none, none, none, none, "t"⟩]) ∧
    (∃ u' st',
      api_update_user [⟨1, "alice", none, none, none, none, "t"⟩] 1
        ⟨some (some "  "), none, none, none, none⟩ = (.ok "updated" u', st') ∧
      u'.name = "alice") := by
  constructor
  · exact (user_update_name_rules
      [⟨1, "alice", none, none, none, none, "t"⟩, ⟨2, "bob", none, none, none, none, "t"⟩] 1
      ⟨1, "alice", none, none, none, none, "t"⟩
      ⟨some (some "bob"), none, none, none, none⟩
      (some "bob") "bob" rfl rfl rfl).1
      ⟨by decide, ⟨2, "bob", none, none, none, none, "t"⟩, by simp, by decide, rfl⟩
  · exact (user_update_name_rules [⟨1, "alice", none, none, none, none, "t"⟩] 1
      ⟨1, "alice", none, none, none, none, "t"⟩
      ⟨some (some "  "), none, none, none, none⟩
      (some "  ") "" rfl rfl rfl).2.2 rfl

/-- CLAIM C8: deleting a user touches only.the user table: the roles (with all
their fields, including assigned_users entries naming the deleted user) are
unchanged, every other user survives, no user appears from nowhere, and when a
user with the id existed, no user with that id remains. -/
theorem user_delete_no_cascade (st : St) (uid : Nat) :
    (app_delete_user st uid).2.roles = st.roles ∧
    (∀ v ∈ st.users, v.id ≠ uid → v ∈ (app_delete_user st uid).2.users) ∧
    (∀ v ∈ (app_delete_user st uid).2.users, v ∈ st.users) ∧
    ((∃ w ∈ st.users, w.id = uid) → ∀ v ∈ (app_delete_user st uid).2.users, v.id ≠ uid) := by
  cases h : st.users.find? (fun x => x.id == uid) with
  | none =>
    have hall := List.find?_eq_none.mp h
    refine ⟨?_, ?_, ?_, ?_⟩
    · simp [app_delete_user, api_delete_user, h]
    · intro v hv _
      simpa [app_delete_user, api_delete_user, h] using hv
    · intro v hv
      simpa [app_delete_user, api_delete_user, h] using hv
    · rintro ⟨w, hw, hwid⟩
      exact absurd (by simp [hwid]) (hall w hw)
  | some w =>
    refine ⟨?_, ?_, ?_, ?_⟩
    · simp [app_delete_user, api_delete_user, h]
    · intro v hv hvid
      simp [app_delete_user, api_delete_user, h, List.mem_filter, hv, hvid]
    · intro v hv
      simp only [app_delete_user, api_delete_user, h, List.mem_filter] at hv
      exact hv.1
    · intro _ v hv
      simp only [app_delete_user, api_delete_user, h, List.mem_filter] at hv
      simpa using hv.2

/-- Witness for C8: deleting user 1 keeps the role whose assigned_users still
names "u1", and user 2 survives. -/
theorem user_delete_no_cascade_witness :
    (app_delete_user
      ⟨[⟨1, "R", .obj [], .arr [.str "u1"], "t"⟩],
       [⟨1, "u1", none, none, none, none, "t"⟩, ⟨2, "u2", none, none, none, none, "t"⟩]⟩
      1).2.roles = [⟨1, "R", .obj [], .arr [.str "u1"], "t"⟩] ∧
    ⟨2, "u2", none, none, none, none, "t"⟩ ∈
      (app_delete_user
        ⟨[⟨1, "R", .obj [], .arr [.str "u1"], "t"⟩],
         [⟨1, "u1", none, none, none, none, "t"⟩, ⟨2, "u2", none, none, none, none, "t"⟩]⟩
        1).2.users := by
  have h := user_delete_no_cascade
    ⟨[⟨1, "R", .obj [], .arr [.str "u1"], "t"⟩],
     [⟨1, "u1", none, none, none, none, "t"⟩, ⟨2, "u2", none, none, none, none, "t"⟩]⟩ 1
  exact ⟨h.1, h.2.1 ⟨2, "u2", none, none, none, none, "t"⟩ (by simp) (by decide)⟩

/-- CLAIM C3: creating a role with a name that strips to empty answers 400
"missing name" with the store unchanged; a name equal to an existing role's
name answers 400 "role exists" with the store unchanged; otherwise a new role
is appended whose privileges and assigned_users come from the body with empty
defaults (the last two conjuncts record that an omitted field — `dictGet`
returning none — defaults to the empty mapping resp. sequence). -/
theorem role_create_rules (store : List Role) (body : Json) (newId : Nat) (now : String)
    (nv privV auV : Option Json) (name : String)
    (hn : dictGet (coerceBody body) "name" = .ok nv)
    (hs : getStrippedStr nv = .ok name)
    (hp : dictGet (coerceBody body) "privileges" = .ok privV)
    (ha : dictGet (coerceBody body) "assigned_users" = .ok auV) :
    (name = "" → api_create_role store body newId now = .ok (.err 400 "missing name", store)) ∧
    (name ≠ "" → (∃ w ∈ store, w.name = name) →
      api_create_role store body newId now = .ok (.err 400 "role exists", store)) ∧
    (name ≠ "" → (∀ w ∈ store, w.name ≠ name) →
      api_create_role store body newId now =
        .ok (.ok "role created" ⟨newId, name, pyOr privV (.obj []), pyOr auV (.arr []), now⟩,
             store ++ [⟨newId, name, pyOr privV (.obj []), pyOr auV (.arr []), now⟩])) ∧
    (privV = none → pyOr privV (.obj []) = .obj []) ∧
    (auV = none → pyOr auV (.arr []) = .arr []) := by
  refine ⟨?_, ?_, ?_, ?_, ?_⟩
  · intro h0
    subst h0
    simp [api_create_role, createRoleCore, hn, hs, hp, ha]
  · intro h0 hex
    obtain ⟨w, hw, hwn⟩ := hex
    have hany : store.any (fun r => r.name == name) = true :=
      List.any_eq_true.mpr ⟨w, hw, by simp [hwn]⟩
    simp [api_create_role, createRoleCore, hn, hs, hp, ha, h0, hany]
  · intro h0 hno
    have hany : store.any (fun r => r.name == name) = false := by
      rw [List.any_eq_false]
      intro x hx
      simp [hno x hx]
    simp [api_create_role, createRoleCore, hn, hs, hp, ha, h0, hany]
  · rintro rfl; rfl
  · rintro rfl; rfl

/-- Witness for C3: creating " Admin " in an empty store strips the name and
persists the role with empty privileges and assigned_users. -/
theorem role_create_rules_witness :
    api_create_role [] (.obj [("name", .str " Admin ")]) 1 "t" =
      .ok (.ok "role created" ⟨1, "Admin", .obj [], .arr [], "t"⟩,
           [⟨1, "Admin", .obj [], .arr [], "t"⟩]) := by
  have h := role_create_rules [] (.obj [("name", .str " Admin ")]) 1 "t"
    (some (.str " Admin ")) none none "Admin" rfl rfl rfl rfl
  exact h.2.2.1 (by decide) (by intro w hw; simp at hw)

/-- CLAIM C9 (amended): a create request whose decoded body is a falsy JSON
value — null, false, 0, the empty string, the empty array or the empty object
— is treated exactly as the empty object, so both create endpoints answer 400
"missing name" and leave their store unchanged. -/
theorem create_falsy_body_rules (body : Json) (hfalsy : pyTruthy body = false)
    (rstore : List Role) (ustore : List User) (newId : Nat) (now : String) :
    api_create_role rstore body newId now = .ok (.err 400 "missing name", rstore) ∧
    api_add_user ustore body newId now = .ok (.err 400 "missing name", ustore) := by
  have hc : coerceBody body = .obj [] := by simp [coerceBody, hfalsy]
  constructor
  · show createRoleCore rstore (coerceBody body) newId now = _
    rw [hc]
    rfl
  · show addUserCore ustore (coerceBody body) newId now = _
    rw [hc]
    rfl

/-- Witness for C9's amended rule: the falsy non-object body given by an empty
JSON array takes the missing-name path on both endpoints. -/
theorem create_falsy_body_rules_witness :
    api_create_role [] (.arr []) 1 "t" = .ok (.err 400 "missing name", []) ∧
    api_add_user [] (.arr []) 1 "t" = .ok (.err 400 "missing name", []) :=
  create_falsy_body_rules (.arr []) rfl [] [] 1 "t"

/-- COUNTEREXAMPLE to C9 as stated: the truthy non-object JSON body "x" is NOT
processed as if it were the empty object — `data.get` raises AttributeError
(a 500), while the empty object yields the 400 "missing name" validation
response; the two outcomes differ. -/
theorem create_nonobject_body_cex :
    api_create_role [] (.str "x") 1 "t" = .error .attributeError ∧
    api_create_role [] (.obj []) 1 "t" = .ok (.err 400 "missing name", []) ∧
    (Except.error .attributeError :
      Except PyErr (RoleResp × List Role)) ≠ .ok (.err 400 "missing name", []) :=
  ⟨rfl, rfl, by simp⟩

/-- CLAIM C4 (amended): duplicate answers 404 when the source id is absent;
when the source exists and some role already bears the name
`"<source.name> Copy"`, the insert violates the UNIQUE constraint on role
names and the request fails with IntegrityError (a 500) — the handler itself
performs no uniqueness pre-check; otherwise a fresh role with the copied name,
identical privileges and assigned_users, and the fresh id and timestamp is
appended and returned. -/
theorem role_duplicate_rules (store : List Role) (rid newId : Nat) (now : String) :
    (store.find? (fun x => x.id == rid) = none →
      api_duplicate_role store rid newId now = .ok (.err 404 "not found", store)) ∧
    (∀ orig, store.find? (fun x => x.id == rid) = some orig →
      ((∃ w ∈ store, w.name = orig.name ++ " Copy") →
        api_duplicate_role store rid newId now = .error .integrityError) ∧
      ((∀ w ∈ store, w.name ≠ orig.name ++ " Copy") →
        api_duplicate_role store rid newId now =
          .ok (.ok "duplicated"
                ⟨newId, orig.name ++ " Copy", orig.privileges, orig.assigned_users, now⟩,
               store ++
                [⟨newId, orig.name ++ " Copy", orig.privileges, orig.assigned_users, now⟩]))) := by
  refine ⟨?_, ?_⟩
  · intro h
    simp [api_duplicate_role, h]
  · intro orig hfind
    refine ⟨?_, ?_⟩
    · rintro ⟨w, hw, hwn⟩
      have hany : store.any (fun x => x.name == orig.name ++ " Copy") = true :=
        List.any_eq_true.mpr ⟨w, hw, by simp [hwn]⟩
      simp [api_duplicate_role, hfind, hany]
    · intro hno
      have hany : store.any (fun x => x.name == orig.name ++ " Copy") = false := by
        rw [List.any_eq_false]
        intro x hx
        simp [hno x hx]
      simp [api_duplicate_role, hfind, hany]

/-- Witness for C4's amended rule: duplicating the only role "A" produces
"A Copy" with identical privileges and assigned_users and a fresh id and
timestamp. -/
theorem role_duplicate_rules_witness :
    api_duplicate_role [⟨1, "A", .obj [("POSP", .arr [.str "read"])], .arr [.str "x"], "t"⟩]
      1 2 "s" =
      .ok (.ok "duplicated"
            ⟨2, "A Copy", .obj [("POSP", .arr [.str "read"])], .arr [.str "x"], "s"⟩,
           [⟨1, "A", .obj [("POSP", .arr [.str "read"])], .arr [.str "x"], "t"⟩,
            ⟨2, "A Copy", .obj [("POSP", .arr [.str "read"])], .arr [.str "x"], "s"⟩]) := by
  have h := (role_duplicate_rules
    [⟨1, "A", .obj [("POSP", .arr [.str "read"])], .arr [.str "x"], "t"⟩] 1 2 "s").2
    ⟨1, "A", .obj [("POSP", .arr [.str "read"])], .arr [.str "x"], "t"⟩ rfl
  refine h.2 ?_
  intro w hw
  simp only [List.mem_singleton] at hw
  subst hw
  decide

/-- COUNTEREXAMPLE to C4 as stated: when a role named "A Copy" already exists,
duplicating role "A" does not create and return a new role — the commit
violates the UNIQUE name constraint and the request fails. -/
theorem role_duplicate_claim_cex :
    api_duplicate_role
      [⟨1, "A", .obj [], .arr [], "t"⟩, ⟨2, "A Copy", .obj [], .arr [], "t"⟩] 1 3 "s"
      = .error .integrityError := rfl

/-! ### Lemmas about summaries -/

theorem asStrList_map (l : List String) : asStrList (l.map Json.str) = .ok l := by
  induction l with
  | nil => rfl
  | cons s rest ih => simp [asStrList, ih]

theorem distinctStrCount_strs (l : List String) :
    distinctStrCount (.arr (l.map .str)) = .ok l.dedup.length := by
  simp [distinctStrCount, asStrList_map]

theorem privCounts_encode (m : List (String × List String)) :
    privCounts (m.map (fun kv => (kv.1, Json.arr (kv.2.map Json.str)))) =
      .ok (m.map (fun kv => kv.2.dedup.length)) := by
  induction m with
  | nil => rfl
  | cons kv rest ih => simp [privCounts, distinctStrCount_strs, ih]

theorem to_summary_encode (r : Role) (m : List (String × List String))
    (hp : r.privileges = .obj (m.map fun kv => (kv.1, Json.arr (kv.2.map Json.str)))) :
    r.to_summary = .ok ⟨r.id, r.name, (m.map fun kv => kv.2.dedup.length).sum,
      m.length, r.created_at, r.assigned_users⟩ := by
  simp [Role.to_summary, hp, privCounts_encode]

theorem summaries_mem (l : List Role) : ∀ out, summaries l = .ok out →
    ∀ r ∈ l, ∃ s ∈ out, r.to_summary = .ok s := by
  induction l with
  | nil => intro out _ r hr; simp at hr
  | cons r0 rs ih =>
    intro out h r hr
    cases h1 : r0.to_summary with
    | error e => simp [summaries, h1] at h
    | ok s0 =>
      cases h2 : summaries rs with
      | error e => simp [summaries, h1, h2] at h
      | ok ss =>
        simp only [summaries, h1, h2] at h
        injection h with h
        subst h
        rcases List.mem_cons.mp hr with rfl | hr'
        · exact ⟨s0, by simp, h1⟩
        · obtain ⟨s, hs, hsum⟩ := ih ss h2 r hr'
          exact ⟨s, by simp [hs], hsum⟩

/-- CLAIM C1: for a stored role whose privileges decode to a mapping from
module names to lists of privilege-kind strings, `to_summary` reports
`privileges_count` as the sum over modules of the number of distinct strings
in that module's list (duplicates collapse), and `modules_count` as the number
of module keys (empty lists included); the role-list endpoint reports exactly
that summary for the role. -/
theorem role_list_summary_counts (store : List Role) (r : Role)
    (m : List (String × List String))
    (hp : r.privileges = .obj (m.map fun kv => (kv.1, Json.arr (kv.2.map Json.str)))) :
    ∃ s, r.to_summary = .ok s ∧
      s.privileges_count = (m.map fun kv => kv.2.toFinset.card).sum ∧
      s.modules_count = m.length ∧
      (∀ out, r ∈ store → api_get_roles store "" = .ok out → s ∈ out) := by
  refine ⟨⟨r.id, r.name, (m.map fun kv => kv.2.dedup.length).sum, m.length,
    r.created_at, r.assigned_users⟩, to_summary_encode r m hp, ?_, rfl, ?_⟩
  · simp [List.card_toFinset]
  · intro out hr hout
    have hrows : r ∈ List.insertionSort roleIdLe store :=
      (List.perm_insertionSort roleIdLe store).mem_iff.mpr hr
    have hout' : summaries (List.insertionSort roleIdLe store) = .ok out := hout
    obtain ⟨s', hs', hsum⟩ := summaries_mem _ out hout' r hrows
    rw [to_summary_encode r m hp] at hsum
    injection hsum with hsum
    rw [hsum]
    exact hs'

/-- Witness for C1: the round-trip example — a role with privileges mapping
"POSP" to the list read, read, update has privileges_count 2 and
modules_count 1, and the role-list endpoint reports that summary. -/
theorem role_list_summary_counts_witness :
    ∃ s,
      Role.to_summary
        ⟨1, "R", .obj [("POSP", .arr [.str "read", .str "read", .str "update"])], .arr [], "t"⟩
        = .ok s ∧
      s.privileges_count = 2 ∧ s.modules_count = 1 ∧
      (∀ out,
        api_get_roles
          [⟨1, "R", .obj [("POSP", .arr [.str "read", .str "read", .str "update"])], .arr [], "t"⟩]
          "" = .ok out → s ∈ out) := by
  obtain ⟨s, h1, h2, h3, h4⟩ := role_list_summary_counts
    [⟨1, "R", .obj [("POSP", .arr [.str "read", .str "read", .str "update"])], .arr [], "t"⟩]
    ⟨1, "R", .obj [("POSP", .arr [.str "read", .str "read", .str "update"])], .arr [], "t"⟩
    [("POSP", ["read", "read", "update"])] rfl
  refine ⟨s, h1, ?_, ?_, fun out hout => h4 out (by simp) hout⟩
  · rw [h2]; decide
  · rw [h3]; rfl

/-! ### Character lemmas for case-insensitive matching -/

theorem toNat_ofNat_valid {n : Nat} (h : n.isValidChar) : (Char.ofNat n).toNat = n := by
  rw [Char.ofNat, dif_pos h]
  rfl

/-- `Char.toLower` either maps an ASCII uppercase letter 32 codepoints up or
leaves the character unchanged. -/
theorem toLower_spec (c : Char) :
    (65 ≤ c.toNat ∧ c.toNat ≤ 90 ∧ (Char.toLower c).toNat = c.toNat + 32) ∨
      Char.toLower c = c := by
  simp only [Char.toLower]
  by_cases h : c.toNat ≥ 65 ∧ c.toNat ≤ 90
  · left
    refine ⟨h.1, h.2, ?_⟩
    rw [if_pos h]
    exact toNat_ofNat_valid (Or.inl (by omega))
  · right
    rw [if_neg h]

theorem toLower_toLower (c : Char) : (Char.toLower c).toLower = Char.toLower c := by
  rcases toLower_spec c with ⟨h1, h2, h3⟩ | h
  · rcases toLower_spec (Char.toLower c) with ⟨g1, g2, _⟩ | g
    · omega
    · exact g
  · rw [h]
    exact h

/-- Lowercasing cannot produce a character below codepoint 97 other than the
character itself; in particular the LIKE wildcards are preserved. -/
theorem toLower_ne_low {c d : Char} (hd : d.toNat < 97) (h : c ≠ d) :
    Char.toLower c ≠ d := by
  rcases toLower_spec c with ⟨h1, _, h3⟩ | hh
  · intro he
    rw [he] at h3
    omega
  · rw [hh]
    exact h

/-! ### Correctness of the LIKE pattern used by the search endpoints -/

theorem startsWithB_iff (p : List Char) : ∀ s, startsWithB p s = true ↔ ∃ t, s = p ++ t := by
  induction p with
  | nil =>
    intro s
    simp [startsWithB]
  | cons c p' ih =>
    intro s
    cases s with
    | nil => simp [startsWithB]
    | cons d s' =>
      simp only [startsWithB, Bool.and_eq_true, beq_iff_eq, ih]
      constructor
      · rintro ⟨rfl, t, rfl⟩
        exact ⟨t, rfl⟩
      · rintro ⟨t, ht⟩
        injection ht with h1 h2
        exact ⟨h1.symm, t, h2⟩

theorem containsB_iff (p : List Char) : ∀ s, containsB p s = true ↔ ∃ a b, s = a ++ p ++ b := by
  intro s
  induction s with
  | nil =>
    rw [show containsB p [] = p.isEmpty from rfl, List.isEmpty_iff]
    constructor
    · rintro rfl
      exact ⟨[], [], rfl⟩
    · rintro ⟨a, b, hab⟩
      cases a with
      | cons x xs => simp at hab
      | nil =>
        cases p with
        | nil => rfl
        | cons y ys => simp at hab
  | cons c s' ih =>
    rw [show containsB p (c :: s') = (startsWithB p (c :: s') || containsB p s') from rfl]
    rw [Bool.or_eq_true, ih, startsWithB_iff]
    constructor
    · rintro (⟨t, ht⟩ | ⟨a, b, hab⟩)
      · exact ⟨[], t, by simp [ht]⟩
      · exact ⟨c :: a, b, by simp [hab]⟩
    · rintro ⟨a, b, hab⟩
      cases a with
      | nil =>
        left
        exact ⟨b, by simpa using hab⟩
      | cons a0 a' =>
        right
        have hab' : c :: s' = a0 :: (a' ++ p ++ b) := by simpa using hab
        injection hab' with h1 h2
        exact ⟨a', b, h2⟩

theorem anySuffix_iff (f : List Char → Bool) : ∀ s, anySuffix f s = true ↔
    ∃ a t, s = a ++ t ∧ f t = true := by
  intro s
  induction s with
  | nil =>
    rw [show anySuffix f [] = f [] from rfl]
    constructor
    · intro h
      exact ⟨[], [], rfl, h⟩
    · rintro ⟨a, t, hat, ht⟩
      cases a with
      | cons _ _ => simp at hat
      | nil =>
        have ht' : t = [] := by simpa using hat.symm
        subst ht'
        exact ht
  | cons c s' ih =>
    rw [show anySuffix f (c :: s') = (f (c :: s') || anySuffix f s') from rfl]
    rw [Bool.or_eq_true, ih]
    constructor
    · rintro (h | ⟨a, t, hat, ht⟩)
      · exact ⟨[], c :: s', rfl, h⟩
      · exact ⟨c :: a, t, by simp [hat], ht⟩
    · rintro ⟨a, t, hat, ht⟩
      cases a with
      | nil =>
        left
        rw [show ([] : List Char) ++ t = t from rfl] at hat
        rw [← hat] at ht
        exact ht
      | cons a0 a' =>
        right
        have hat' : c :: s' = a0 :: (a' ++ t) := by simpa using hat
        injection hat' with h1 h2
        exact ⟨a', t, h2, ht⟩

/-- A wildcard-free literal followed by a trailing `%` matches exactly the
strings having the literal as a prefix. -/
theorem likeM_lit (p : List Char) (hp : ∀ c ∈ p, c ≠ '%' ∧ c ≠ '_') :
    ∀ s, likeM (p ++ ['%']) s = true ↔ ∃ b, s = p ++ b := by
  induction p with
  | nil =>
    intro s
    constructor
    · intro _
      exact ⟨s, rfl⟩
    · intro _
      rw [show likeM (([] : List Char) ++ ['%']) s = anySuffix (likeM []) s from by
        simp [likeM]]
      exact (anySuffix_iff _ s).mpr ⟨s, [], by simp, rfl⟩
  | cons a p' ih =>
    intro s
    have ha := hp a (by simp)
    have ih' := ih (fun c hc => hp c (by simp [hc]))
    cases s with
    | nil =>
      rw [show (a :: p') ++ ['%'] = a :: (p' ++ ['%']) from rfl]
      rw [show likeM (a :: (p' ++ ['%'])) [] =
        (if a = '%' then anySuffix (likeM (p' ++ ['%'])) [] else false) from rfl]
      rw [if_neg ha.1]
      simp
    | cons c s' =>
      rw [show (a :: p') ++ ['%'] = a :: (p' ++ ['%']) from rfl]
      rw [show likeM (a :: (p' ++ ['%'])) (c :: s') =
        (if a = '%' then anySuffix (likeM (p' ++ ['%'])) (c :: s')
         else (decide (a = '_') || a == c) && likeM (p' ++ ['%']) s') from rfl]
      rw [if_neg ha.1]
      rw [Bool.and_eq_true, Bool.or_eq_true]
      simp only [decide_eq_true_eq, beq_iff_eq]
      constructor
      · rintro ⟨h_ | rfl, hlike⟩
        · exact absurd h_ ha.2
        · obtain ⟨b, rfl⟩ := (ih' s').mp hlike
          exact ⟨b, rfl⟩
      · rintro ⟨b, hb⟩
        have hb' : c :: s' = a :: (p' ++ b) := by simpa using hb
        injection hb' with h1 h2
        exact ⟨Or.inr h1.symm, (ih' s').mpr ⟨b, h2⟩⟩

/-- The full search pattern `%lit%` with a wildcard-free literal matches
exactly the strings containing the literal as a substring. -/
theorem likeM_pct (p : List Char) (hp : ∀ c ∈ p, c ≠ '%' ∧ c ≠ '_') (s : List Char) :
    likeM ('%' :: (p ++ ['%'])) s = true ↔ containsB p s = true := by
  rw [show likeM ('%' :: (p ++ ['%'])) s = anySuffix (likeM (p ++ ['%'])) s from by
    simp [likeM]]
  rw [anySuffix_iff, containsB_iff]
  constructor
  · rintro ⟨a, t, rfl, ht⟩
    obtain ⟨b, rfl⟩ := (likeM_lit p hp t).mp ht
    exact ⟨a, b, by simp⟩
  · rintro ⟨a, b, rfl⟩
    exact ⟨a, p ++ b, by simp, (likeM_lit p hp (p ++ b)).mpr ⟨b, rfl⟩⟩

/-! ### From `ilike` with the code's pattern to substring occurrence -/

theorem lowerStr_data (s : String) : (lowerStr s).data = s.data.map Char.toLower := rfl

theorem strAppend_data (s t : String) : (s ++ t).data = s.data ++ t.data := by
  cases s
  cases t
  rfl

theorem eq_empty_iff_data (s : String) : s = "" ↔ s.data = [] := by
  constructor
  · rintro rfl
    rfl
  · intro h
    cases s with
    | mk d =>
      have hd : d = [] := h
      subst hd
      rfl

theorem toLower_pct : Char.toLower '%' = '%' := by decide

/-- The code lowercases the filter, wraps it in `%...%` and matches with
`ilike`; for a wildcard-free filter this is exactly case-insensitive substring
occurrence. -/
theorem ilike_pattern_iff (q f : String) (hw : ∀ c ∈ q.data, c ≠ '%' ∧ c ≠ '_') :
    ilike ("%" ++ lowerStr q ++ "%") f = true ↔ ciSubstr q f = true := by
  unfold ilike ciSubstr
  have hdata : ("%" ++ lowerStr q ++ "%").data = '%' :: ((lowerStr q).data ++ ['%']) := by
    rw [strAppend_data, strAppend_data]
    rfl
  have hq : (lowerStr q).data.map Char.toLower = q.data.map Char.toLower := by
    rw [lowerStr_data, List.map_map]
    exact List.map_congr_left (fun c _ => toLower_toLower c)
  have hpat : (lowerStr ("%" ++ lowerStr q ++ "%")).data
      = '%' :: ((q.data.map Char.toLower) ++ ['%']) := by
    rw [lowerStr_data, hdata]
    simp [toLower_pct, hq]
  rw [hpat]
  have hp' : ∀ c ∈ q.data.map Char.toLower, c ≠ '%' ∧ c ≠ '_' := by
    intro c hc
    obtain ⟨c0, hc0, rfl⟩ := List.mem_map.mp hc
    exact ⟨toLower_ne_low (by decide) (hw c0 hc0).1,
           toLower_ne_low (by decide) (hw c0 hc0).2⟩
  exact likeM_pct (q.data.map Char.toLower) hp' (lowerStr f).data

theorem ilikeOpt_pattern_iff (q : String) (hw : ∀ c ∈ q.data, c ≠ '%' ∧ c ≠ '_')
    (o : Option String) :
    ilikeOpt ("%" ++ lowerStr q ++ "%") o = true ↔ ciSubstrOpt q o = true := by
  cases o with
  | none => simp [ilikeOpt, ciSubstrOpt]
  | some s => exact ilike_pattern_iff q s hw

/-- CLAIM C7 (amended): the user list is ordered by id ascending; a non-empty,
already-trimmed filter containing no LIKE wildcard characters includes a user
exactly when the filter occurs case-insensitively as a substring of the name,
email, role or branch field (NULL fields match nothing); an empty filter
returns all users (ordered). -/
theorem users_list_filter_rules (store : List User) (q : String)
    (htrim : pyStrip q = q) (hne : q ≠ "")
    (hw : ∀ c ∈ q.data, c ≠ '%' ∧ c ≠ '_') :
    (api_get_users store q).Pairwise userIdLe ∧
    (∀ u, u ∈ api_get_users store q ↔ u ∈ store ∧
      (ciSubstr q u.name = true ∨ ciSubstrOpt q u.email = true ∨
       ciSubstrOpt q u.role = true ∨ ciSubstrOpt q u.branch = true)) ∧
    (api_get_users store "").Pairwise userIdLe ∧
    (∀ u, u ∈ api_get_users store "" ↔ u ∈ store) := by
  have hq_ne : lowerStr q ≠ "" := by
    intro h0
    apply hne
    rw [eq_empty_iff_data] at h0 ⊢
    rw [lowerStr_data] at h0
    simpa using h0
  have hA : api_get_users store q =
      List.insertionSort userIdLe (store.filter (userMatches (lowerStr q))) := by
    show List.insertionSort userIdLe
      (if lowerStr (pyStrip q) = "" then store
       else store.filter (userMatches (lowerStr (pyStrip q)))) = _
    rw [htrim, if_neg hq_ne]
  have hE : api_get_users store "" = List.insertionSort userIdLe store := rfl
  refine ⟨?_, ?_, ?_, ?_⟩
  · rw [hA]
    exact List.sorted_insertionSort userIdLe _
  · intro u
    rw [hA]
    rw [(List.perm_insertionSort userIdLe _).mem_iff, List.mem_filter]
    apply and_congr_right
    intro _
    rw [show userMatches (lowerStr q) u =
        (ilike ("%" ++ lowerStr q ++ "%") u.name ||
         ilikeOpt ("%" ++ lowerStr q ++ "%") u.email ||
         ilikeOpt ("%" ++ lowerStr q ++ "%") u.role ||
         ilikeOpt ("%" ++ lowerStr q ++ "%") u.branch) from rfl]
    simp only [Bool.or_eq_true]
    rw [ilike_pattern_iff q u.name hw, ilikeOpt_pattern_iff q hw u.email,
        ilikeOpt_pattern_iff q hw u.role, ilikeOpt_pattern_iff q hw u.branch]
    tauto
  · rw [hE]
    exact List.sorted_insertionSort userIdLe _
  · intro u
    rw [hE]
    exact (List.perm_insertionSort userIdLe store).mem_iff

/-- Witness for C7's amended rule: searching "branch" finds the user whose
role field contains "Branch" case-insensitively, and an empty filter returns
everything. -/
theorem users_list_filter_rules_witness :
    (⟨1, "Alice", some "Branch User", none, none, none, "t"⟩ : User) ∈
      api_get_users [⟨1, "Alice", some "Branch User", none, none, none, "t"⟩] "branch" ∧
    ((⟨1, "Alice", some "Branch User", none, none, none, "t"⟩ : User) ∈
      api_get_users [⟨1, "Alice", some "Branch User", none, none, none, "t"⟩] "") := by
  have h := users_list_filter_rules
    [⟨1, "Alice", some "Branch User", none, none, none, "t"⟩] "branch"
    rfl (by decide) (by decide)
  constructor
  · exact (h.2.1 ⟨1, "Alice", some "Branch User", none, none, none, "t"⟩).mpr
      ⟨by simp, Or.inr (Or.inr (Or.inl (by decide)))⟩
  · exact (h.2.2.2 ⟨1, "Alice", some "Branch User", none, none, none, "t"⟩).mpr (by simp)

/-- COUNTEREXAMPLE to C7 as stated: the filter "_" is a LIKE wildcard, so the
user named "ab" is included in the search result even though "_" does not
occur as a substring of any of its fields. -/
theorem users_filter_claim_cex :
    (⟨1, "ab", none, none, none, none, "t"⟩ : User) ∈
      api_get_users [⟨1, "ab", none, none, none, none, "t"⟩] "_" ∧
    ¬ (ciSubstr "_" "ab" = true ∨ ciSubstrOpt "_" (none : Option String) = true ∨
       ciSubstrOpt "_" (none : Option String) = true ∨
       ciSubstrOpt "_" (none : Option String) = true) := by
  constructor
  · decide
  · decide

end RBAC
